import Mathlib

/-!
# Verification of the approval-driven learning-weight engine

Shallow embedding of the learning subsystem of `ruvvector-service`:

* the approval handler (`createApprovalHandler`) with its EMA weight
  upsert (`updateLearningWeight`) and recommendation-type extraction
  (`extractRecommendationType`);
* the decision CRUD handlers of `DatabaseClient.ts`
  (`createDecisionHandler`, `listDecisionsHandler`).

Database tables are embedded as Lean lists of rows; SQL double-precision
arithmetic is idealised as exact rationals (`ℚ`).  Because the `+`, `*`,
`-` operations on `Rat` are `@[irreducible]` in this toolchain, the model
uses `mkRat`-based wrappers (`qadd`, `qsub`, `qmul`, …) that evaluate by
kernel reduction; each wrapper is proved equal to the corresponding field
operation, so theorems can be stated with ordinary arithmetic.
-/

namespace RuvVector

/-! ### Executable rational arithmetic -/

/-- Addition on `ℚ` via `mkRat`, so closed terms reduce. -/
def qadd (a b : ℚ) : ℚ := mkRat (a.num * (b.den : Int) + b.num * (a.den : Int)) (a.den * b.den)

/-- Subtraction on `ℚ` via `mkRat`. -/
def qsub (a b : ℚ) : ℚ := mkRat (a.num * (b.den : Int) - b.num * (a.den : Int)) (a.den * b.den)

/-- Multiplication on `ℚ` via `mkRat`. -/
def qmul (a b : ℚ) : ℚ := mkRat (a.num * b.num) (a.den * b.den)

/-- Strict order on `ℚ` by cross multiplication, as a `Bool`. -/
def qlt (a b : ℚ) : Bool := decide (a.num * (b.den : Int) < b.num * (a.den : Int))

/-- Non-strict order on `ℚ` by cross multiplication, as a `Bool`. -/
def qle (a b : ℚ) : Bool := decide (a.num * (b.den : Int) ≤ b.num * (a.den : Int))

/-! ### Executable string helpers

The `String` functions of the core library (`toUpper`, `trim`, `splitOn`,
…) do not reduce in the kernel, so the model works on the underlying
character lists. -/

/-- Uppercasing, as JavaScript `toUpperCase` on ASCII text. -/
def upper (s : String) : String := ⟨s.data.map Char.toUpper⟩

/-- JavaScript `s.substring(0, n)`. -/
def strTake (s : String) (n : Nat) : String := ⟨s.data.take n⟩

/-- Does `s` start with `p` (exact characters)? -/
def strStartsWith (s p : String) : Bool := p.data.isPrefixOf s.data

/-- JavaScript `String.prototype.trim`. -/
def strTrim (s : String) : String :=
  ⟨((s.data.dropWhile Char.isWhitespace).reverse.dropWhile Char.isWhitespace).reverse⟩

/-- Is `n` a contiguous infix of `h`? -/
def infixOfB (n : List Char) : List Char → Bool
  | [] => n.isEmpty
  | c :: t => n.isPrefixOf (c :: t) || infixOfB n t

/-- Case-insensitive substring containment: SQL `hay ILIKE '%needle%'`. -/
def containsCI (hay needle : String) : Bool :=
  infixOfB (upper needle).data (upper hay).data

/-- Split a character list at every occurrence of `c`. -/
def splitOnChar (c : Char) : List Char → List (List Char)
  | [] => [[]]
  | x :: xs =>
    if x = c then [] :: splitOnChar c xs
    else
      match splitOnChar c xs with
      | [] => [[x]]
      | g :: gs => (x :: g) :: gs

/-- Hexadecimal digit, either case. -/
def isHexDigit (c : Char) : Bool :=
  c.isDigit || (decide ('a' ≤ c) && decide (c ≤ 'f')) || (decide ('A' ≤ c) && decide (c ≤ 'F'))

/-- Validation `z.string().uuid()`: the 8-4-4-4-12 hex-group shape (case-insensitive). -/
def isUuid (s : String) : Bool :=
  match splitOnChar '-' s.data with
  | [a, b, c, d, e] =>
    a.length == 8 && b.length == 4 && c.length == 4 && d.length == 4 && e.length == 12 &&
      (a ++ b ++ c ++ d ++ e).all isHexDigit
  | _ => false

/-- Decimal digits of a character list read as a natural number. -/
def digitsToNat : List Char → Nat → Nat
  | [], acc => acc
  | c :: cs, acc => digitsToNat cs (acc * 10 + (c.toNat - 48))

/-- JavaScript `parseInt(s, 10)`: skip leading whitespace, optional sign,
then a maximal digit run; `none` models `NaN` (no digits found). -/
def parseIntJS (s : String) : Option Int :=
  let cs := s.data.dropWhile Char.isWhitespace
  match cs with
  | '-' :: t =>
    let ds := t.takeWhile Char.isDigit
    if ds.isEmpty then none else some (-(digitsToNat ds 0 : Int))
  | '+' :: t =>
    let ds := t.takeWhile Char.isDigit
    if ds.isEmpty then none else some (digitsToNat ds 0 : Int)
  | _ =>
    let ds := cs.takeWhile Char.isDigit
    if ds.isEmpty then none else some (digitsToNat ds 0 : Int)

/-! ### Recommendation-type extraction

Source (`part_004`):
```
function extractRecommendationType(recommendation: string): string {
  const match = recommendation.match(/^(PROCEED|DEFER|REJECT|REVIEW|HALT)/i);
  return match ? match[1].toUpperCase() : 'UNKNOWN';
}
```
A case-insensitive anchored match of one of five keywords as a *prefix* of
the text (the regex has no word-boundary), embedded as prefix tests on the
uppercased string. -/

/-- The five recommendation keywords of the extraction regex. -/
def recKeywords : List String := ["PROCEED", "DEFER", "REJECT", "REVIEW", "HALT"]

/-- Function `extractRecommendationType` from `part_004`. -/
def extractRecommendationType (recommendation : String) : String :=
  if strStartsWith (upper recommendation) "PROCEED" then "PROCEED"
  else if strStartsWith (upper recommendation) "DEFER" then "DEFER"
  else if strStartsWith (upper recommendation) "REJECT" then "REJECT"
  else if strStartsWith (upper recommendation) "REVIEW" then "REVIEW"
  else if strStartsWith (upper recommendation) "HALT" then "HALT"
  else "UNKNOWN"

/-- The leading alphabetic token of a string (used to state the "leading
token" reading of the spec, not part of the source). -/
def leadingToken (s : String) : String := ⟨s.data.takeWhile Char.isAlpha⟩

/-- The spec's "leading token" classification: the whole leading token must
be one of the five keywords (case-insensitively); otherwise `UNKNOWN`. -/
def tokenRecommendationType (s : String) : String :=
  if upper (leadingToken s) ∈ recKeywords then upper (leadingToken s) else "UNKNOWN"

/-! ### The learning-weight ledger

Table `learning_weights`, unique on
`(source_type, source_id, target_type, target_value)`. The `created_at` /
`updated_at` bookkeeping columns carry no claim content and are omitted. -/

/-- Composite key of a `learning_weights` row. -/
structure LWKey where
  sourceType : String
  sourceId : String
  targetType : String
  targetValue : String
deriving DecidableEq

/-- A `learning_weights` row. -/
structure LWRow where
  key : LWKey
  weight : ℚ
  updateCount : Nat
deriving DecidableEq

/-- Learning rate `LEARNING_RATE = 0.1` from `part_004`. -/
def LEARNING_RATE : ℚ := mkRat 1 10

/-- The EMA blend of the SQL `DO UPDATE` clause:
`weight + LEARNING_RATE * (reward - weight)`. -/
def emaUpdate (w reward : ℚ) : ℚ := qadd w (qmul LEARNING_RATE (qsub reward w))

/-- The upsert of `updateLearningWeight` (and of the inlined trajectory
statement): on a key conflict blend the stored weight with the reward and
bump the counter, otherwise insert a fresh row seeded with the reward and
counter 1. -/
def upsertWeight (tbl : List LWRow) (k : LWKey) (reward : ℚ) : List LWRow :=
  match tbl with
  | [] => [⟨k, reward, 1⟩]
  | r :: rs =>
    if r.key = k then ⟨k, emaUpdate r.weight reward, r.updateCount + 1⟩ :: rs
    else r :: upsertWeight rs k reward

/-- Function `updateLearningWeight` from `part_004`: the target type is always the
literal `'recommendation'`. -/
def updateLearningWeight (tbl : List LWRow) (sourceType sourceId targetValue : String)
    (reward : ℚ) : List LWRow :=
  upsertWeight tbl ⟨sourceType, sourceId, "recommendation", targetValue⟩ reward

/-! ### Decisions and approvals -/

/-- The three categorical signal fields of a decision. -/
structure Signals where
  financial : String
  risk : String
  complexity : String
deriving DecidableEq

/-- A row of the `decisions` table. `embedding` is always written as SQL
`NULL` by `createDecisionHandler` and is omitted; `graph_relations` is an
opaque JSON payload never inspected by the handlers under claim. -/
structure DecisionRow where
  id : String
  objective : String
  command : String
  rawOutputHash : String
  recommendation : String
  confidence : String
  signals : Signals
  embeddingText : String
  graphRelations : String
  createdAt : Int
deriving DecidableEq

/-- A row of the `approvals` table (audit timestamps omitted). -/
structure ApprovalRow where
  id : String
  decisionId : String
  approved : Bool
  confidenceAdjustment : Option ℚ
  reward : ℚ
deriving DecidableEq

/-- The persistent state: the three logical tables. -/
structure DBState where
  decisions : List DecisionRow
  approvals : List ApprovalRow
  weights : List LWRow
deriving DecidableEq

/-- `SELECT ... FROM decisions WHERE id = $1` (unique primary key, so the
first match). -/
def findDecision (ds : List DecisionRow) (id : String) : Option DecisionRow :=
  ds.find? (fun d => d.id == id)

/-! ### createDecisionHandler (`DatabaseClient.ts`)

`INSERT ... ON CONFLICT (id) DO UPDATE SET objective, command,
raw_output_hash, recommendation, confidence, signals, embedding_text,
graph_relations` — note that `created_at` is *not* in the update list, so
a conflicting insert keeps the stored row's `created_at`. -/

/-- Input of `POST /v1/decisions` after JSON parsing. -/
structure DecisionInput where
  id : String
  objective : String
  command : String
  rawOutputHash : String
  recommendation : String
  confidence : String
  signals : Signals
  embeddingText : String
  graphRelations : String
  createdAt : Option Int
deriving DecidableEq

/-- The checks of `createDecisionSchema` (zod). `graph_relations` is
structurally validated by zod but never inspected afterwards, so its
validation is not modelled field by field. -/
def validateDecision (i : DecisionInput) : Bool :=
  isUuid i.id && decide (i.objective.data.length ≥ 1) && decide (i.command.data.length ≥ 1) &&
    decide (i.rawOutputHash.data.length = 64) && decide (i.recommendation.data.length ≥ 1) &&
    (i.confidence == "HIGH" || i.confidence == "MEDIUM" || i.confidence == "LOW") &&
    decide (i.embeddingText.data.length ≥ 1)

/-- The row written for a validated input (`created_at` defaulted to the
wall clock `now` when absent). -/
def mkDecisionRow (i : DecisionInput) (now : Int) : DecisionRow :=
  ⟨i.id, i.objective, i.command, i.rawOutputHash, i.recommendation, i.confidence,
    i.signals, i.embeddingText, i.graphRelations, i.createdAt.getD now⟩

/-- Upsert `INSERT ... ON CONFLICT (id) DO UPDATE`: replace the first row with a
matching id (keeping its `created_at`), else append. -/
def upsertDecision (l : List DecisionRow) (row : DecisionRow) : List DecisionRow :=
  match l with
  | [] => [row]
  | r :: rs =>
    if r.id = row.id then { row with createdAt := r.createdAt } :: rs
    else r :: upsertDecision rs row

/-- Responses of the decision/approval write handlers. -/
inductive WriteResp where
  | validationError
  | notFound
  | internalError
  | createdDecision (id : String)
  | createdApproval (id : String) (decisionId : String) (reward : ℚ)
      (weightsUpdated : Nat) (learningApplied : Bool)
deriving DecidableEq

/-- Handler `createDecisionHandler`. -/
def createDecisionHandler (st : DBState) (now : Int) (input : DecisionInput) :
    DBState × WriteResp :=
  if validateDecision input then
    ({ st with decisions := upsertDecision st.decisions (mkDecisionRow input now) },
      .createdDecision input.id)
  else (st, .validationError)

/-! ### createApprovalHandler (`part_004`) -/

/-- Schema `createApprovalSchema`: `confidence_adjustment` is optional with zod
bounds `.min(-1).max(1)` (inclusive). -/
def validAdjustment : Option ℚ → Bool
  | none => true
  | some a => qle (-1) a && qle a 1

/-- Derivation `reward = approved ? 1.0 : -1.0`. -/
def baseReward (approved : Bool) : ℚ := if approved then 1 else -1

/-- Derivation `confidence_adjustment ? reward * (1 + confidence_adjustment) : reward`
— note the JavaScript truthiness test: an adjustment of `0` is falsy and
takes the un-multiplied branch (numerically the same value). -/
def adjustedReward (approved : Bool) (adj : Option ℚ) : ℚ :=
  match adj with
  | none => baseReward approved
  | some a => if a = 0 then baseReward approved else qmul (baseReward approved) (qadd 1 a)

/-- The six learning edges written per approval event, in handler order:
the decision edge, one edge per signal field (id
`<signalType>:<first 50 chars>`), the objective edge (first 200 chars of
the objective) and the trajectory edge. Each entry is
`(sourceType, sourceId, targetValue)`. -/
def approvalEdges (decisionId : String) (d : DecisionRow) : List (String × String × String) :=
  let t := extractRecommendationType d.recommendation
  [("decision", decisionId, t),
   ("signal", "financial:" ++ strTake d.signals.financial 50, t),
   ("signal", "risk:" ++ strTake d.signals.risk 50, t),
   ("signal", "complexity:" ++ strTake d.signals.complexity 50, t),
   ("objective", strTake d.objective 200, t),
   ("decision", "trajectory:" ++ decisionId, "pattern:" ++ t)]

/-- Run the sequence of per-edge upsert queries. `fails` is the set of
database-call indices that throw (modelling `StoreUnavailable`); `idx`
numbers the next call. Returns the weight table, the number of updates
applied (the handler's `weightsUpdated` counter) and whether every call
succeeded — on a throw the handler falls into its `catch` with the calls
made so far already committed (each statement is its own atomic unit). -/
def applyEdges (weights : List LWRow) (edges : List (String × String × String))
    (reward : ℚ) (fails : List Nat) (idx : Nat) : List LWRow × Nat × Bool :=
  match edges with
  | [] => (weights, 0, true)
  | e :: rest =>
    if idx ∈ fails then (weights, 0, false)
    else
      let w2 := updateLearningWeight weights e.1 e.2.1 e.2.2 reward
      let r := applyEdges w2 rest reward fails (idx + 1)
      (r.1, r.2.1 + 1, r.2.2)

/-- Handler `createApprovalHandler` from `part_004`. Database calls in order:
call 0 the decision `SELECT`, call 1 the approval `INSERT`, calls 2–7 the
six edge upserts (the trajectory statement is inlined in the source with
the same SQL as `updateLearningWeight`). A call index in `fails` throws;
the surrounding `try`/`catch` then answers 500 `internal_error`, keeping
everything already committed. -/
def createApprovalHandler (st : DBState) (approvalId decisionId : String)
    (approved : Bool) (adj : Option ℚ) (fails : List Nat) : DBState × WriteResp :=
  if isUuid decisionId && validAdjustment adj then
    if 0 ∈ fails then (st, .internalError)
    else
      match findDecision st.decisions decisionId with
      | none => (st, .notFound)
      | some d =>
        let reward := adjustedReward approved adj
        if 1 ∈ fails then (st, .internalError)
        else
          let st1 := { st with
            approvals := st.approvals ++
              [(⟨approvalId, decisionId, approved, adj, reward⟩ : ApprovalRow)] }
          let r := applyEdges st1.weights (approvalEdges decisionId d) reward fails 2
          let st2 := { st1 with weights := r.1 }
          if r.2.2 then (st2, .createdApproval approvalId decisionId reward r.2.1 true)
          else (st2, .internalError)
  else (st, .validationError)

/-! ### listDecisionsHandler (`DatabaseClient.ts`)

```
LEFT JOIN learning_weights lw ON lw.source_type = 'decision'
  AND lw.source_id = d.id::text AND lw.target_type = 'recommendation'
ORDER BY COALESCE(lw.weight, 0) DESC, d.created_at DESC
LIMIT .. OFFSET ..
```
The join condition has no constraint on `lw.target_value`: a decision is
joined with *every* weight row whose source is `('decision', d.id)`. -/

/-- Query parameters of `GET /v1/decisions` (raw query strings; `none`
means the parameter is absent, whereupon the source destructures with
defaults `limit = '50'`, `offset = '0'`). -/
structure ListParams where
  objective : Option String
  limit : Option String
  offset : Option String
deriving DecidableEq

/-- Clamp `Math.min(Math.max(parseInt(limit, 10) || 50, 1), 1000)` — note
`NaN || 50` and `0 || 50` are both `50`. -/
def effectiveLimit (limit : Option String) : Int :=
  let v : Int :=
    match parseIntJS (limit.getD ("50")) with
    | none => 50
    | some n => if n = 0 then 50 else n
  min (max v 1) 1000

/-- Clamp `Math.max(parseInt(offset, 10) || 0, 0)`. -/
def effectiveOffset (offset : Option String) : Int :=
  let v : Int :=
    match parseIntJS (offset.getD ("0")) with
    | none => 0
    | some n => n
  max v 0

/-- Does a decision pass the objective filter?  The `ILIKE` condition is
only attached when the parameter is present with non-empty trimmed text
(`%` and `_` wildcards inside the user text are not modelled; no claim
exercises them). -/
def matchesObjective (q : Option String) (d : DecisionRow) : Bool :=
  match q with
  | none => true
  | some s =>
    if 0 < (strTrim s).data.length then containsCI d.objective (strTrim s) else true

/-- The weight rows the SQL join attaches to a decision: source type
`'decision'`, source id `d.id`, target type `'recommendation'` — any
target value. -/
def joinedWeights (weights : List LWRow) (d : DecisionRow) : List LWRow :=
  weights.filter (fun r =>
    r.key.sourceType == "decision" && r.key.sourceId == d.id &&
      r.key.targetType == "recommendation")

/-- One output row per joined weight row, or a single row with
`COALESCE(lw.weight, 0) = 0` when the LEFT JOIN finds nothing. -/
def joinPairs (weights : List LWRow) (d : DecisionRow) : List (DecisionRow × ℚ) :=
  match joinedWeights weights d with
  | [] => [(d, 0)]
  | ws => ws.map (fun r => (d, r.weight))

/-- Concatenating map (the rows produced by the join over all decisions). -/
def catMap (f : α → List β) : List α → List β
  | [] => []
  | x :: xs => f x ++ catMap f xs

/-- Comparator for `ORDER BY weight DESC, created_at DESC`:
`a` may come before `b`. -/
def rankBefore (a b : DecisionRow × ℚ) : Bool :=
  qlt b.2 a.2 || (b.2 == a.2 && decide (b.1.createdAt ≤ a.1.createdAt))

/-- Insertion into a ranked list. -/
def insertRanked (x : DecisionRow × ℚ) : List (DecisionRow × ℚ) → List (DecisionRow × ℚ)
  | [] => [x]
  | y :: ys => if rankBefore x y then x :: y :: ys else y :: insertRanked x ys

/-- Sorting by `rankBefore` (insertion sort; the SQL order is any order
consistent with the comparator and all concrete claims avoid ties). -/
def sortRanked : List (DecisionRow × ℚ) → List (DecisionRow × ℚ)
  | [] => []
  | x :: xs => insertRanked x (sortRanked xs)

/-- Response of `GET /v1/decisions`. -/
structure ListResponse where
  data : List DecisionRow
  total : Nat
  limit : Int
  offset : Int
deriving DecidableEq

/-- Shared tail of the handler: sort the joined rows, apply
`OFFSET`/`LIMIT`, pair with the filter count. -/
def buildListResponse (joined : List (DecisionRow × ℚ)) (total : Nat)
    (limit offset : Int) : ListResponse :=
  ⟨(((sortRanked joined).drop offset.toNat).take limit.toNat).map (fun p => p.1),
    total, limit, offset⟩

/-- Handler `listDecisionsHandler` (read-only; returns the HTTP payload). -/
def listDecisionsHandler (st : DBState) (p : ListParams) : ListResponse :=
  let filtered := st.decisions.filter (matchesObjective p.objective)
  buildListResponse (catMap (joinPairs st.weights) filtered) filtered.length
    (effectiveLimit p.limit) (effectiveOffset p.offset)

/-- The weight the *claim* says the ordering uses: the edge keyed
`(decision, d.id, recommendation, extractRecommendationType
d.recommendation)`, defaulting to `0` when no such edge exists.
This definition follows the spec's words, for comparison with
`listDecisionsHandler`; it is not part of the source. -/
def claimedWeight (weights : List LWRow) (d : DecisionRow) : ℚ :=
  match weights.find? (fun r =>
    r.key == ⟨"decision", d.id, "recommendation", extractRecommendationType d.recommendation⟩) with
  | some r => r.weight
  | none => 0

/-- The listing the claim describes: one row per decision, ranked by
`claimedWeight` then `createdAt`, both descending. Follows the spec's
words, for comparison with `listDecisionsHandler`. -/
def listDecisionsClaimed (st : DBState) (p : ListParams) : ListResponse :=
  let filtered := st.decisions.filter (matchesObjective p.objective)
  buildListResponse (filtered.map (fun d => (d, claimedWeight st.weights d))) filtered.length
    (effectiveLimit p.limit) (effectiveOffset p.offset)

/-! ### The operations of the system

Everything in the repository that touches the `decisions`, `approvals` or
`learning_weights` tables: the two write handlers above, plus the
read-only `getDecisionHandler` and `listDecisionsHandler` (plain
`SELECT`s, leaving the state unchanged). No other source file references
these tables. -/

/-- One inbound operation. -/
inductive Op where
  | createDecision (now : Int) (input : DecisionInput)
  | getDecision (id : String)
  | listDecisions (p : ListParams)
  | createApproval (approvalId decisionId : String) (approved : Bool)
      (adj : Option ℚ) (fails : List Nat)
deriving DecidableEq

/-- Is the operation a decision creation? -/
def Op.isCreateDecision : Op → Bool
  | .createDecision _ _ => true
  | _ => false

/-- State transition of one operation. -/
def step (st : DBState) (op : Op) : DBState :=
  match op with
  | .createDecision now input => (createDecisionHandler st now input).1
  | .getDecision _ => st
  | .listDecisions _ => st
  | .createApproval aid did approved adj fails =>
    (createApprovalHandler st aid did approved adj fails).1

/-! ### Concrete example data (used by witnesses and counterexamples) -/

/-- A well-formed decision id. -/
def exDid : String := "11111111-1111-1111-1111-111111111111"

/-- A second well-formed decision id. -/
def exDid2 : String := "22222222-2222-2222-2222-222222222222"

/-- A well-formed approval id. -/
def exAid : String := "aaaaaaaa-aaaa-aaaa-aaaa-aaaaaaaaaaaa"

/-- A 64-character output hash. -/
def exHash : String := "0000000000000000000000000000000000000000000000000000000000000000"

/-- A stored decision with a `PROCEED` recommendation. -/
def exDecision : DecisionRow :=
  ⟨exDid, "ship the release", "synth", exHash, "PROCEED: ship it", "HIGH",
    ⟨"ok", "low", "low"⟩, "emb", "graph", 10⟩

/-- State holding just `exDecision`. -/
def exState : DBState := ⟨[exDecision], [], []⟩

/-- A decision whose recommendation extracts to `UNKNOWN`, created at 10. -/
def exVague1 : DecisionRow :=
  ⟨exDid, "alpha objective", "synth", exHash, "no idea", "LOW",
    ⟨"ok", "low", "low"⟩, "emb", "graph", 10⟩

/-- A second `UNKNOWN`-extraction decision, created later (at 20). -/
def exVague2 : DecisionRow :=
  ⟨exDid2, "beta objective", "synth", exHash, "no idea", "LOW",
    ⟨"ok", "low", "low"⟩, "emb", "graph", 20⟩

/-- State where `exVague1` carries a stale decision edge whose target value
`PROCEED` differs from the decision's current extraction `UNKNOWN`
(reachable by approving and then re-creating the decision with a changed
recommendation). -/
def exMismatchState : DBState :=
  ⟨[exVague1, exVague2], [],
    [⟨⟨"decision", exDid, "recommendation", "PROCEED"⟩, mkRat 4 5, 1⟩]⟩

/-- A `PROCEED` decision created at 10. -/
def exRanked1 : DecisionRow :=
  ⟨exDid, "alpha objective", "synth", exHash, "PROCEED: a", "HIGH",
    ⟨"ok", "low", "low"⟩, "emb", "graph", 10⟩

/-- A `PROCEED` decision created at 20. -/
def exRanked2 : DecisionRow :=
  ⟨exDid2, "beta objective", "synth", exHash, "PROCEED: b", "HIGH",
    ⟨"ok", "low", "low"⟩, "emb", "graph", 20⟩

/-- State where the older decision has edge weight `0.8` and the newer one
`-0.2`, both edges keyed by the decisions' own extraction. -/
def exRankState : DBState :=
  ⟨[exRanked1, exRanked2], [],
    [⟨⟨"decision", exDid, "recommendation", "PROCEED"⟩, mkRat 4 5, 1⟩,
     ⟨⟨"decision", exDid2, "recommendation", "PROCEED"⟩, mkRat (-1) 5, 1⟩]⟩

/-- Query with no parameters supplied. -/
def exNoParams : ListParams := ⟨none, none, none⟩

/-- A valid decision-creation input. -/
def exInput1 : DecisionInput :=
  ⟨exDid, "objective A", "synth", exHash, "PROCEED: yes", "HIGH",
    ⟨"ok", "low", "low"⟩, "emb", "graph", some 10⟩

/-- The same id resubmitted with a different objective. -/
def exInput2 : DecisionInput := { exInput1 with objective := "objective B" }

/-! ## Theorems -/

theorem qadd_eq (a b : ℚ) : qadd a b = a + b := by
  have hb : ((b.den : ℚ)) ≠ 0 := by exact_mod_cast b.den_ne_zero
  have ha : ((a.den : ℚ)) ≠ 0 := by exact_mod_cast a.den_ne_zero
  rw [qadd, Rat.mkRat_eq_divInt, Rat.divInt_eq_div]
  conv_rhs => rw [← Rat.num_div_den a, ← Rat.num_div_den b]
  push_cast
  rw [div_add_div _ _ ha hb]
  ring_nf

theorem qsub_eq (a b : ℚ) : qsub a b = a - b := by
  have hb : ((b.den : ℚ)) ≠ 0 := by exact_mod_cast b.den_ne_zero
  have ha : ((a.den : ℚ)) ≠ 0 := by exact_mod_cast a.den_ne_zero
  rw [qsub, Rat.mkRat_eq_divInt, Rat.divInt_eq_div]
  conv_rhs => rw [← Rat.num_div_den a, ← Rat.num_div_den b]
  push_cast
  rw [div_sub_div _ _ ha hb]
  ring_nf

theorem qmul_eq (a b : ℚ) : qmul a b = a * b := by
  have hb : ((b.den : ℚ)) ≠ 0 := by exact_mod_cast b.den_ne_zero
  have ha : ((a.den : ℚ)) ≠ 0 := by exact_mod_cast a.den_ne_zero
  rw [qmul, Rat.mkRat_eq_divInt, Rat.divInt_eq_div]
  conv_rhs => rw [← Rat.num_div_den a, ← Rat.num_div_den b]
  push_cast
  rw [div_mul_div_comm]

theorem qlt_iff (a b : ℚ) : qlt a b = true ↔ a < b := by
  have hb : (0 : ℚ) < (b.den : ℚ) := by exact_mod_cast b.pos
  have ha : (0 : ℚ) < (a.den : ℚ) := by exact_mod_cast a.pos
  rw [qlt, decide_eq_true_eq]
  conv_rhs => rw [← Rat.num_div_den a, ← Rat.num_div_den b]
  rw [div_lt_div_iff₀ ha hb]
  constructor
  · intro h; exact_mod_cast h
  · intro h; exact_mod_cast h

theorem qle_iff (a b : ℚ) : qle a b = true ↔ a ≤ b := by
  have hb : (0 : ℚ) < (b.den : ℚ) := by exact_mod_cast b.pos
  have ha : (0 : ℚ) < (a.den : ℚ) := by exact_mod_cast a.pos
  rw [qle, decide_eq_true_eq]
  conv_rhs => rw [← Rat.num_div_den a, ← Rat.num_div_den b]
  rw [div_le_div_iff₀ ha hb]
  constructor
  · intro h; exact_mod_cast h
  · intro h; exact_mod_cast h

/-! ### Helper lemmas -/

theorem LEARNING_RATE_eq : LEARNING_RATE = (1 / 10 : ℚ) := by
  rw [LEARNING_RATE, Rat.mkRat_eq_divInt, Rat.divInt_eq_div]
  norm_num

theorem emaUpdate_eq (w r : ℚ) : emaUpdate w r = w + (1 / 10) * (r - w) := by
  rw [emaUpdate, qadd_eq, qmul_eq, qsub_eq, LEARNING_RATE_eq]

theorem upsertWeight_fresh (tbl : List LWRow) (k : LWKey) (w : ℚ)
    (h : ∀ r ∈ tbl, r.key ≠ k) :
    upsertWeight tbl k w = tbl ++ [⟨k, w, 1⟩] := by
  induction tbl with
  | nil => rfl
  | cons r rs ih =>
    have hr : r.key ≠ k := h r (by simp)
    simp only [upsertWeight, if_neg hr, List.cons_append, List.cons.injEq, true_and]
    exact ih fun q hq => h q (by simp [hq])

theorem upsertWeight_found (pre post : List LWRow) (r : LWRow) (k : LWKey) (w : ℚ)
    (hk : r.key = k) (hpre : ∀ q ∈ pre, q.key ≠ k) :
    upsertWeight (pre ++ r :: post) k w =
      pre ++ ⟨k, emaUpdate r.weight w, r.updateCount + 1⟩ :: post := by
  induction pre with
  | nil => simp [upsertWeight, hk]
  | cons q qs ih =>
    have hq : q.key ≠ k := hpre q (by simp)
    simp only [List.cons_append, upsertWeight, if_neg hq, List.cons.injEq, true_and]
    exact ih fun p hp => hpre p (by simp [hp])

theorem applyEdges_ok_count (edges : List (String × String × String)) (w : List LWRow)
    (reward : ℚ) (fails : List Nat) (idx : Nat)
    (h : (applyEdges w edges reward fails idx).2.2 = true) :
    (applyEdges w edges reward fails idx).2.1 = edges.length := by
  induction edges generalizing w idx with
  | nil => rfl
  | cons e rest ih =>
    by_cases hf : idx ∈ fails
    · simp [applyEdges, hf] at h
    · simp only [applyEdges, if_neg hf] at h ⊢
      rw [ih _ _ h]
      simp

theorem applyEdges_fail (edges : List (String × String × String)) (w : List LWRow)
    (reward : ℚ) (fails : List Nat) (idx : Nat)
    (h : ∃ j ∈ fails, idx ≤ j ∧ j < idx + edges.length) :
    (applyEdges w edges reward fails idx).2.2 = false := by
  induction edges generalizing w idx with
  | nil =>
    obtain ⟨j, _, hj1, hj2⟩ := h
    simp only [List.length_nil] at hj2
    omega
  | cons e rest ih =>
    by_cases hf : idx ∈ fails
    · simp [applyEdges, hf]
    · obtain ⟨j, hjf, hj1, hj2⟩ := h
      have hne : idx ≠ j := fun he => hf (he ▸ hjf)
      simp only [applyEdges, if_neg hf]
      exact ih _ _ ⟨j, hjf, by omega, by simp at hj2 ⊢; omega⟩

theorem applyEdges_weights_fold (edges : List (String × String × String)) (w : List LWRow)
    (reward : ℚ) (fails : List Nat) (idx : Nat) :
    ∃ es : List (LWKey × ℚ),
      (applyEdges w edges reward fails idx).1 =
        es.foldl (fun t e => upsertWeight t e.1 e.2) w := by
  induction edges generalizing w idx with
  | nil => exact ⟨[], rfl⟩
  | cons e rest ih =>
    by_cases hf : idx ∈ fails
    · exact ⟨[], by simp [applyEdges, hf]⟩
    · obtain ⟨es, hes⟩ :=
        ih (updateLearningWeight w e.1 e.2.1 e.2.2 reward) (idx + 1)
      refine ⟨⟨⟨e.1, e.2.1, "recommendation", e.2.2⟩, reward⟩ :: es, ?_⟩
      simp only [applyEdges, if_neg hf, List.foldl_cons]
      exact hes

theorem createApprovalHandler_decisions (st : DBState) (aid did : String) (approved : Bool)
    (adj : Option ℚ) (fails : List Nat) :
    (createApprovalHandler st aid did approved adj fails).1.decisions = st.decisions := by
  unfold createApprovalHandler
  split
  · split
    · rfl
    · split
      · rfl
      · split
        · rfl
        · dsimp only
          split <;> rfl
  · rfl

theorem createApprovalHandler_approvals_kept (st : DBState) (aid did : String)
    (approved : Bool) (adj : Option ℚ) (fails : List Nat) (d : DecisionRow)
    (hval : (isUuid did && validAdjustment adj) = true)
    (h0 : 0 ∉ fails) (h1 : 1 ∉ fails)
    (hfind : findDecision st.decisions did = some d) :
    (createApprovalHandler st aid did approved adj fails).1.approvals =
      st.approvals ++
        [(⟨aid, did, approved, adj, adjustedReward approved adj⟩ : ApprovalRow)] := by
  unfold createApprovalHandler
  rw [if_pos hval, if_neg h0, hfind]
  simp only [if_neg h1]
  split <;> rfl

theorem catMap_eq_map {α β : Type} (f : α → List β) (g : α → β) (l : List α)
    (h : ∀ x ∈ l, f x = [g x]) : catMap f l = l.map g := by
  induction l with
  | nil => rfl
  | cons x xs ih =>
    simp only [catMap, List.map_cons, h x (by simp), List.singleton_append,
      List.cons.injEq, true_and]
    exact ih fun y hy => h y (by simp [hy])

theorem keyword_prefix_eq :
    ∀ a ∈ recKeywords, ∀ b ∈ recKeywords, a.data.isPrefixOf b.data = true → a = b := by
  decide

theorem startsWith_unique (u k1 k2 : String) (h1 : k1 ∈ recKeywords) (h2 : k2 ∈ recKeywords)
    (s1 : strStartsWith u k1 = true) (s2 : strStartsWith u k2 = true) : k1 = k2 := by
  rw [strStartsWith, List.isPrefixOf_iff_prefix] at s1 s2
  rcases List.prefix_or_prefix_of_prefix s1 s2 with h | h
  · exact keyword_prefix_eq k1 h1 k2 h2 (List.isPrefixOf_iff_prefix.mpr h)
  · exact (keyword_prefix_eq k2 h2 k1 h1 (List.isPrefixOf_iff_prefix.mpr h)).symm

theorem effectiveLimit_bounds (l : Option String) :
    1 ≤ effectiveLimit l ∧ effectiveLimit l ≤ 1000 := by
  unfold effectiveLimit
  cases parseIntJS (l.getD ("50")) with
  | none => constructor <;> decide
  | some n =>
    by_cases hn : n = 0
    · simp only [hn, if_pos rfl]
      constructor <;> decide
    · simp only [if_neg hn]
      omega

theorem effectiveOffset_nonneg (o : Option String) : 0 ≤ effectiveOffset o := by
  unfold effectiveOffset
  cases parseIntJS (o.getD ("0")) with
  | none => decide
  | some n =>
    dsimp only
    omega

theorem applyEdges_no_fails (edges : List (String × String × String)) (w : List LWRow)
    (reward : ℚ) (idx : Nat) :
    applyEdges w edges reward [] idx =
      (edges.foldl (fun t e => updateLearningWeight t e.1 e.2.1 e.2.2 reward) w,
        edges.length, true) := by
  induction edges generalizing w idx with
  | nil => rfl
  | cons e rest ih =>
    simp only [applyEdges, List.not_mem_nil, if_false, List.foldl_cons, List.length_cons,
      ih (updateLearningWeight w e.1 e.2.1 e.2.2 reward) (idx + 1)]

/-! ### Claim theorems -/

/-- C1: for every call of the Weight Ledger upsert, a missing row for the
composite key `(sourceType, sourceId, 'recommendation', targetValue)` is
created with `weight = reward` exactly and `updateCount = 1`; an existing
row is blended to `weight + 0.1 * (reward - weight)` with its counter
incremented by exactly one; and no operation of the system changes stored
weights through any rule other than this upsert. -/
theorem C1_weight_ledger_update_rule :
    (∀ (tbl : List LWRow) (stype sid tv : String) (reward : ℚ),
      (∀ r ∈ tbl, r.key ≠ ⟨stype, sid, "recommendation", tv⟩) →
      updateLearningWeight tbl stype sid tv reward =
        tbl ++ [⟨⟨stype, sid, "recommendation", tv⟩, reward, 1⟩]) ∧
    (∀ (pre post : List LWRow) (r : LWRow) (stype sid tv : String) (reward : ℚ),
      r.key = ⟨stype, sid, "recommendation", tv⟩ →
      (∀ q ∈ pre, q.key ≠ ⟨stype, sid, "recommendation", tv⟩) →
      updateLearningWeight (pre ++ r :: post) stype sid tv reward =
        pre ++ ⟨⟨stype, sid, "recommendation", tv⟩,
          r.weight + (1 / 10) * (reward - r.weight), r.updateCount + 1⟩ :: post) ∧
    (∀ (st : DBState) (op : Op), ∃ es : List (LWKey × ℚ),
      (step st op).weights = es.foldl (fun t e => upsertWeight t e.1 e.2) st.weights) := by
  refine ⟨?_, ?_, ?_⟩
  · intro tbl stype sid tv reward h
    exact upsertWeight_fresh tbl _ reward h
  · intro pre post r stype sid tv reward hk hpre
    rw [updateLearningWeight, upsertWeight_found pre post r _ reward hk hpre, emaUpdate_eq]
  · intro st op
    cases op with
    | createDecision now input =>
      refine ⟨[], ?_⟩
      simp only [step, createDecisionHandler, List.foldl_nil]
      split <;> rfl
    | getDecision id => exact ⟨[], rfl⟩
    | listDecisions p => exact ⟨[], rfl⟩
    | createApproval aid did approved adj fails =>
      by_cases hval : (isUuid did && validAdjustment adj) = true
      · by_cases h0 : 0 ∈ fails
        · exact ⟨[], by simp [step, createApprovalHandler, hval, h0]⟩
        · cases hfind : findDecision st.decisions did with
          | none => exact ⟨[], by simp [step, createApprovalHandler, hval, h0, hfind]⟩
          | some d =>
            by_cases h1 : 1 ∈ fails
            · exact ⟨[], by simp [step, createApprovalHandler, hval, h0, hfind, h1]⟩
            · obtain ⟨es, hes⟩ := applyEdges_weights_fold (approvalEdges did d) st.weights
                (adjustedReward approved adj) fails 2
              refine ⟨es, ?_⟩
              simp only [step, createApprovalHandler, if_pos hval, if_neg h0, hfind,
                if_neg h1]
              split <;> exact hes
      · exact ⟨[], by simp [step, createApprovalHandler, hval]⟩

/-- Witness for C1: a fresh edge is seeded with the reward, an existing
edge is blended, and a concrete operation only folds upserts. -/
theorem C1_weight_ledger_update_rule_witness :
    (updateLearningWeight [] "decision" "w1" "PROCEED" 1 =
      [] ++ [⟨⟨"decision", "w1", "recommendation", "PROCEED"⟩, 1, 1⟩]) ∧
    (updateLearningWeight
        ([] ++ (⟨⟨"decision", "w1", "recommendation", "PROCEED"⟩, 1, 2⟩ : LWRow) :: [])
        "decision" "w1" "PROCEED" (-1) =
      [] ++ (⟨⟨"decision", "w1", "recommendation", "PROCEED"⟩,
        (1 : ℚ) + (1 / 10) * (-1 - 1), 2 + 1⟩ : LWRow) :: []) ∧
    (∃ es : List (LWKey × ℚ),
      (step exState (.getDecision exDid)).weights =
        es.foldl (fun t e => upsertWeight t e.1 e.2) exState.weights) :=
  ⟨C1_weight_ledger_update_rule.1 [] "decision" "w1" "PROCEED" 1 (by simp),
   C1_weight_ledger_update_rule.2.1 [] []
     ⟨⟨"decision", "w1", "recommendation", "PROCEED"⟩, 1, 2⟩
     "decision" "w1" "PROCEED" (-1) rfl (by simp),
   C1_weight_ledger_update_rule.2.2 exState (.getDecision exDid)⟩

/-- C2: a successful approval event with reward `r` and extracted type `T`
updates, via the EMA upsert, exactly the six edges
`(decision, decisionId) → T`, one `(signal, '<type>:<first 50 chars>') → T`
per signal field, `(objective, first 200 chars) → T` and the trajectory
edge `(decision, 'trajectory:<id>') → 'pattern:<T>'`; it appends the
approval record and reports success. -/
theorem C2_approval_edge_set (st : DBState) (aid did : String) (approved : Bool)
    (adj : Option ℚ) (d : DecisionRow)
    (hval : (isUuid did && validAdjustment adj) = true)
    (hfind : findDecision st.decisions did = some d) :
    (createApprovalHandler st aid did approved adj []).1.weights =
      ([("decision", did, extractRecommendationType d.recommendation),
        ("signal", "financial:" ++ strTake d.signals.financial 50,
          extractRecommendationType d.recommendation),
        ("signal", "risk:" ++ strTake d.signals.risk 50,
          extractRecommendationType d.recommendation),
        ("signal", "complexity:" ++ strTake d.signals.complexity 50,
          extractRecommendationType d.recommendation),
        ("objective", strTake d.objective 200,
          extractRecommendationType d.recommendation),
        ("decision", "trajectory:" ++ did,
          "pattern:" ++ extractRecommendationType d.recommendation)] :
        List (String × String × String)).foldl
        (fun t e => updateLearningWeight t e.1 e.2.1 e.2.2 (adjustedReward approved adj))
        st.weights ∧
    (createApprovalHandler st aid did approved adj []).1.approvals =
      st.approvals ++
        [(⟨aid, did, approved, adj, adjustedReward approved adj⟩ : ApprovalRow)] ∧
    (createApprovalHandler st aid did approved adj []).2 =
      .createdApproval aid did (adjustedReward approved adj) 6 true := by
  unfold createApprovalHandler
  rw [if_pos hval, if_neg (by simp : ¬ (0 : Nat) ∈ ([] : List Nat)), hfind]
  dsimp only
  rw [if_neg (by simp : ¬ (1 : Nat) ∈ ([] : List Nat)), applyEdges_no_fails]
  exact ⟨rfl, rfl, rfl⟩

/-- Witness for C2 on a concrete state with a `PROCEED` decision. -/
theorem C2_approval_edge_set_witness :
    (createApprovalHandler exState exAid exDid true none []).1.weights =
      ([("decision", exDid, extractRecommendationType exDecision.recommendation),
        ("signal", "financial:" ++ strTake exDecision.signals.financial 50,
          extractRecommendationType exDecision.recommendation),
        ("signal", "risk:" ++ strTake exDecision.signals.risk 50,
          extractRecommendationType exDecision.recommendation),
        ("signal", "complexity:" ++ strTake exDecision.signals.complexity 50,
          extractRecommendationType exDecision.recommendation),
        ("objective", strTake exDecision.objective 200,
          extractRecommendationType exDecision.recommendation),
        ("decision", "trajectory:" ++ exDid,
          "pattern:" ++ extractRecommendationType exDecision.recommendation)] :
        List (String × String × String)).foldl
        (fun t e => updateLearningWeight t e.1 e.2.1 e.2.2 (adjustedReward true none))
        exState.weights ∧
    (createApprovalHandler exState exAid exDid true none []).1.approvals =
      exState.approvals ++
        [(⟨exAid, exDid, true, none, adjustedReward true none⟩ : ApprovalRow)] ∧
    (createApprovalHandler exState exAid exDid true none []).2 =
      .createdApproval exAid exDid (adjustedReward true none) 6 true :=
  C2_approval_edge_set exState exAid exDid true none exDecision (by decide) (by decide)

/-- C7: an approval for a decision id that resolves to no stored decision
answers `not_found` and leaves the whole state unchanged — no approval row
and no weight row is written. -/
theorem C7_not_found_writes_nothing (st : DBState) (aid did : String) (approved : Bool)
    (adj : Option ℚ) (fails : List Nat)
    (hval : (isUuid did && validAdjustment adj) = true)
    (h0 : 0 ∉ fails)
    (hfind : findDecision st.decisions did = none) :
    createApprovalHandler st aid did approved adj fails = (st, .notFound) := by
  unfold createApprovalHandler
  rw [if_pos hval, if_neg h0, hfind]

/-- Witness for C7 on the empty store. -/
theorem C7_not_found_writes_nothing_witness :
    createApprovalHandler ⟨[], [], []⟩ exAid exDid2 true none [] =
      (⟨[], [], []⟩, .notFound) :=
  C7_not_found_writes_nothing ⟨[], [], []⟩ exAid exDid2 true none []
    (by decide) (by decide) (by decide)

/-- C10: every success response of the approval handler carries
`weights_updated = 6` and `learning_applied = true`, whatever the state,
the decision content, or which edges already existed. -/
theorem C10_success_reports_six (st : DBState) (aid did : String) (approved : Bool)
    (adj : Option ℚ) (fails : List Nat) (i did2 : String) (r : ℚ) (n : Nat) (l : Bool)
    (h : (createApprovalHandler st aid did approved adj fails).2 =
      .createdApproval i did2 r n l) :
    n = 6 ∧ l = true := by
  unfold createApprovalHandler at h
  by_cases hval : (isUuid did && validAdjustment adj) = true
  · rw [if_pos hval] at h
    by_cases h0 : 0 ∈ fails
    · rw [if_pos h0] at h
      exact absurd h (by simp)
    · rw [if_neg h0] at h
      cases hfind : findDecision st.decisions did with
      | none =>
        rw [hfind] at h
        exact absurd h (by simp)
      | some d =>
        rw [hfind] at h
        dsimp only at h
        by_cases h1 : 1 ∈ fails
        · rw [if_pos h1] at h
          exact absurd h (by simp)
        · rw [if_neg h1] at h
          by_cases hok : (applyEdges st.weights (approvalEdges did d)
              (adjustedReward approved adj) fails 2).2.2 = true
          · rw [if_pos hok] at h
            dsimp only at h
            simp only [WriteResp.createdApproval.injEq] at h
            obtain ⟨-, -, -, hn, hl⟩ := h
            have hcnt := applyEdges_ok_count (approvalEdges did d) st.weights
              (adjustedReward approved adj) fails 2 hok
            refine ⟨?_, hl.symm⟩
            rw [← hn, hcnt]
            rfl
          · rw [if_neg hok] at h
            exact absurd h (by simp)
  · rw [if_neg hval] at h
    exact absurd h (by simp)

/-- Witness for C10 on a concrete successful run. -/
theorem C10_success_reports_six_witness : (6 : Nat) = 6 ∧ true = true :=
  C10_success_reports_six exState exAid exDid true none [] exAid exDid 1 6 true (by decide)

/-- C4: with no adjustment the derived reward is exactly `+1` for approval
and `-1` for rejection; a supplied adjustment in `[-1, 1]` multiplies the
base reward by `1 + adjustment`; an out-of-range adjustment is rejected as
a validation error with nothing persisted. -/
theorem C4_reward_derivation :
    (∀ (st : DBState) (aid did : String) (approved : Bool) (a : ℚ) (fails : List Nat),
      ¬ (-1 ≤ a ∧ a ≤ 1) →
      createApprovalHandler st aid did approved (some a) fails = (st, .validationError)) ∧
    (∀ approved : Bool, adjustedReward approved none = if approved then (1 : ℚ) else -1) ∧
    (∀ (approved : Bool) (a : ℚ), -1 ≤ a → a ≤ 1 →
      adjustedReward approved (some a) = (if approved then (1 : ℚ) else -1) * (1 + a)) := by
  refine ⟨?_, ?_, ?_⟩
  · intro st aid did approved a fails h
    have hv : validAdjustment (some a) = false := by
      rw [validAdjustment]
      rcases not_and_or.mp h with h1 | h1
      · have hq : qle (-1) a = false := by
          cases hq2 : qle (-1) a
          · rfl
          · exact absurd ((qle_iff (-1) a).mp hq2) h1
        rw [hq, Bool.false_and]
      · have hq : qle a 1 = false := by
          cases hq2 : qle a 1
          · rfl
          · exact absurd ((qle_iff a 1).mp hq2) h1
        rw [hq, Bool.and_false]
    unfold createApprovalHandler
    rw [hv, Bool.and_false]
    simp
  · intro approved
    rfl
  · intro approved a h1 h2
    rw [adjustedReward]
    by_cases ha : a = 0
    · subst ha
      rw [if_pos rfl, add_zero, mul_one]
      rfl
    · rw [if_neg ha, qmul_eq, qadd_eq]
      rfl

/-- Witness for C4: adjustment `2` is rejected; adjustment `1/2` scales
the reward. -/
theorem C4_reward_derivation_witness :
    createApprovalHandler exState exAid exDid true (some 2) [] =
      (exState, .validationError) ∧
    adjustedReward true none = (if true then (1 : ℚ) else -1) ∧
    adjustedReward true (some (mkRat 1 2)) =
      (if true then (1 : ℚ) else -1) * (1 + mkRat 1 2) :=
  ⟨C4_reward_derivation.1 exState exAid exDid true 2 [] (by norm_num),
   C4_reward_derivation.2.1 true,
   C4_reward_derivation.2.2 true (mkRat 1 2)
     (by rw [Rat.mkRat_eq_divInt, Rat.divInt_eq_div]; norm_num)
     (by rw [Rat.mkRat_eq_divInt, Rat.divInt_eq_div]; norm_num)⟩

/-- C5 fails as stated: on the input "REJECTED: do not ship" the leading
token `REJECTED` matches none of the five keywords, so the claim requires
`UNKNOWN` — but the code's anchored regex has no token boundary and
matches the prefix `REJECT`. -/
theorem C5_counterexample :
    extractRecommendationType ("REJECTED: do not ship") = "REJECT" ∧
    leadingToken ("REJECTED: do not ship") = "REJECTED" ∧
    tokenRecommendationType ("REJECTED: do not ship") = "UNKNOWN" := by
  decide

/-- C5 amended: `extractRecommendationType` is total with range
`{PROCEED, DEFER, REJECT, REVIEW, HALT, UNKNOWN}`; it returns a keyword
exactly when that keyword is a case-insensitive *prefix* of the input (not
necessarily its whole leading token), and `UNKNOWN` exactly when no
keyword is such a prefix. -/
theorem C5_prefix_classification (s : String) :
    extractRecommendationType s ∈
      ["PROCEED", "DEFER", "REJECT", "REVIEW", "HALT", "UNKNOWN"] ∧
    (∀ kw ∈ recKeywords, strStartsWith (upper s) kw = true →
      extractRecommendationType s = kw) ∧
    (extractRecommendationType s = "UNKNOWN" ↔
      ∀ kw ∈ recKeywords, strStartsWith (upper s) kw = false) := by
  have hne : ∀ k ∈ recKeywords, k ≠ "UNKNOWN" := by decide
  have hmatch : ∀ kw ∈ recKeywords, strStartsWith (upper s) kw = true →
      extractRecommendationType s = kw := by
    intro kw hkw hsw
    have hfalse : ∀ kw2 ∈ recKeywords, kw2 ≠ kw → strStartsWith (upper s) kw2 = false := by
      intro kw2 hm hne2
      cases hv : strStartsWith (upper s) kw2
      · rfl
      · exact absurd (startsWith_unique (upper s) kw2 kw hm hkw hv hsw) hne2
    have hkw2 : kw = "PROCEED" ∨ kw = "DEFER" ∨ kw = "REJECT" ∨ kw = "REVIEW" ∨
        kw = "HALT" := by
      simpa [recKeywords] using hkw
    rcases hkw2 with rfl | rfl | rfl | rfl | rfl
    · simp [extractRecommendationType, hsw]
    · simp [extractRecommendationType, hsw,
        hfalse ("PROCEED") (by decide) (by decide)]
    · simp [extractRecommendationType, hsw,
        hfalse ("PROCEED") (by decide) (by decide),
        hfalse ("DEFER") (by decide) (by decide)]
    · simp [extractRecommendationType, hsw,
        hfalse ("PROCEED") (by decide) (by decide),
        hfalse ("DEFER") (by decide) (by decide),
        hfalse ("REJECT") (by decide) (by decide)]
    · simp [extractRecommendationType, hsw,
        hfalse ("PROCEED") (by decide) (by decide),
        hfalse ("DEFER") (by decide) (by decide),
        hfalse ("REJECT") (by decide) (by decide),
        hfalse ("REVIEW") (by decide) (by decide)]
  refine ⟨?_, hmatch, ?_⟩
  · unfold extractRecommendationType
    repeat' split
    all_goals decide
  · constructor
    · intro hu kw hkw
      cases hv : strStartsWith (upper s) kw
      · rfl
      · have hk := hmatch kw hkw hv
        rw [hk] at hu
        exact absurd hu (hne kw hkw)
    · intro hall
      simp [extractRecommendationType,
        hall ("PROCEED") (by decide), hall ("DEFER") (by decide),
        hall ("REJECT") (by decide), hall ("REVIEW") (by decide),
        hall ("HALT") (by decide)]

/-- Witness for C5: a prefix match forces the matching keyword, and the
`UNKNOWN` characterisation holds on a concrete non-matching input. -/
theorem C5_prefix_classification_witness :
    extractRecommendationType ("Review later") = "REVIEW" ∧
    (extractRecommendationType ("no clue") = "UNKNOWN" ↔
      ∀ kw ∈ recKeywords, strStartsWith (upper ("no clue")) kw = false) :=
  ⟨(C5_prefix_classification ("Review later")).2.1 ("REVIEW") (by decide) (by decide),
   (C5_prefix_classification ("no clue")).2.2⟩

/-- C6 fails as stated: with edge-update call 3 (the second signal edge)
failing after call 2 succeeded, the handler answers 500 `internal_error`
instead of completing the submission with a partial `weights_updated`
count — though the approval record and the already-committed edge are
retained. -/
theorem C6_counterexample :
    (createApprovalHandler exState exAid exDid true none [3]).2 = .internalError ∧
    (⟨exAid, exDid, true, none, 1⟩ : ApprovalRow) ∈
      (createApprovalHandler exState exAid exDid true none [3]).1.approvals ∧
    (createApprovalHandler exState exAid exDid true none [3]).1.weights.length = 1 := by
  decide

/-- C6 amended: when any of the six edge-update calls fails, the approval
submission does not complete — the handler responds `internal_error` and
reports no partial success count — while the already-persisted approval
record is retained (not rolled back), as are the edges committed before
the failure. -/
theorem C6_partial_failure_aborts (st : DBState) (aid did : String) (approved : Bool)
    (adj : Option ℚ) (fails : List Nat) (d : DecisionRow)
    (hval : (isUuid did && validAdjustment adj) = true)
    (h0 : 0 ∉ fails) (h1 : 1 ∉ fails)
    (hfind : findDecision st.decisions did = some d)
    (hfail : ∃ j ∈ fails, 2 ≤ j ∧ j < 8) :
    (createApprovalHandler st aid did approved adj fails).2 = .internalError ∧
    (⟨aid, did, approved, adj, adjustedReward approved adj⟩ : ApprovalRow) ∈
      (createApprovalHandler st aid did approved adj fails).1.approvals := by
  have hokf : (applyEdges st.weights (approvalEdges did d)
      (adjustedReward approved adj) fails 2).2.2 = false := by
    apply applyEdges_fail
    obtain ⟨j, hj, h2, h8⟩ := hfail
    refine ⟨j, hj, h2, ?_⟩
    have hlen : (approvalEdges did d).length = 6 := rfl
    omega
  constructor
  · unfold createApprovalHandler
    rw [if_pos hval, if_neg h0, hfind]
    dsimp only
    rw [if_neg h1]
    rw [hokf]
    simp
  · rw [createApprovalHandler_approvals_kept st aid did approved adj fails d hval h0 h1 hfind]
    simp

/-- Witness for C6 on a concrete partially-failing run. -/
theorem C6_partial_failure_aborts_witness :
    (createApprovalHandler exState exAid exDid true none [3]).2 = .internalError ∧
    (⟨exAid, exDid, true, none, adjustedReward true none⟩ : ApprovalRow) ∈
      (createApprovalHandler exState exAid exDid true none [3]).1.approvals :=
  C6_partial_failure_aborts exState exAid exDid true none [3] exDecision
    (by decide) (by decide) (by decide) (by decide) ⟨3, by decide, by decide, by decide⟩

theorem upsertDecision_fresh (l : List DecisionRow) (row : DecisionRow)
    (h : ∀ r ∈ l, r.id ≠ row.id) : upsertDecision l row = l ++ [row] := by
  induction l with
  | nil => rfl
  | cons r rs ih =>
    have hr : r.id ≠ row.id := h r (by simp)
    simp only [upsertDecision, if_neg hr, List.cons_append, List.cons.injEq, true_and]
    exact ih fun q hq => h q (by simp [hq])

theorem upsertDecision_found (pre post : List DecisionRow) (r row : DecisionRow)
    (hk : r.id = row.id) (hpre : ∀ q ∈ pre, q.id ≠ row.id) :
    upsertDecision (pre ++ r :: post) row =
      pre ++ { row with createdAt := r.createdAt } :: post := by
  induction pre with
  | nil => simp [upsertDecision, hk]
  | cons q qs ih =>
    have hq : q.id ≠ row.id := hpre q (by simp)
    simp only [List.cons_append, upsertDecision, if_neg hq, List.cons.injEq, true_and]
    exact ih fun p hp => hpre p (by simp [hp])

/-- C3 fails as stated: the SQL join has no condition on the edge's
`target_value`, so a stale edge `(decision, d1, recommendation, PROCEED)`
with weight `0.8` still ranks a decision whose current extraction is
`UNKNOWN` — where the claim (no matching edge, so weight `0`) would order
the newer decision first. Such a state is reachable by approving a
decision and then re-creating it with a changed recommendation. -/
theorem C3_counterexample :
    ((listDecisionsHandler exMismatchState exNoParams).data.map (fun d => d.id) =
      [exDid, exDid2]) ∧
    ((listDecisionsClaimed exMismatchState exNoParams).data.map (fun d => d.id) =
      [exDid2, exDid]) := by
  decide

/-- C3 amended: the query ranks by the weight of *any* edge keyed
`(decision, d.id, recommendation, _)` (0 when none), weight descending
then `createdAt` descending; whenever each decision's edges are exactly
the single edge targeting its own extracted recommendation type — the
situation produced by approvals on decisions whose recommendation never
changed — this coincides with the claimed ordering. -/
theorem C3_ranking_join_refinement (st : DBState) (p : ListParams)
    (hcoh : ∀ d ∈ st.decisions,
      joinPairs st.weights d = [(d, claimedWeight st.weights d)]) :
    listDecisionsHandler st p = listDecisionsClaimed st p := by
  unfold listDecisionsHandler listDecisionsClaimed
  dsimp only
  have hj : catMap (joinPairs st.weights)
      (st.decisions.filter (matchesObjective p.objective)) =
      (st.decisions.filter (matchesObjective p.objective)).map
        (fun d => (d, claimedWeight st.weights d)) := by
    apply catMap_eq_map
    intro d hd
    exact hcoh d (List.mem_of_mem_filter hd)
  rw [hj]

/-- Witness for C3 amended: with edge weights `0.8` and `-0.2` on two
`PROCEED` decisions, the older but heavier decision is listed first. -/
theorem C3_ranking_join_refinement_witness :
    listDecisionsHandler exRankState exNoParams =
      listDecisionsClaimed exRankState exNoParams ∧
    (listDecisionsHandler exRankState exNoParams).data.map (fun d => d.id) =
      [exDid, exDid2] :=
  ⟨C3_ranking_join_refinement exRankState exNoParams (by decide), by decide⟩

/-- C8 fails as stated: `createDecisionHandler` is an upsert
(`ON CONFLICT (id) DO UPDATE`), so re-submitting an existing id rewrites
the stored decision's fields — here the objective changes from
"objective A" to "objective B". -/
theorem C8_counterexample :
    ((createDecisionHandler (⟨[], [], []⟩ : DBState) 0 exInput1).1.decisions.map
      (fun d => d.objective)) = ["objective A"] ∧
    ((createDecisionHandler (createDecisionHandler (⟨[], [], []⟩ : DBState) 0 exInput1).1 0
        exInput2).1.decisions.map (fun d => d.objective)) = ["objective B"] := by
  decide

/-- C8 amended: a decision row is *not* immutable: a fresh id is appended
as given, but re-submitting an existing id overwrites every stored field
except `id` and `created_at` (which the `ON CONFLICT` clause does not
update); no operation other than `createDecision` changes the decisions
table. -/
theorem C8_decision_upsert_mutability :
    (∀ (st : DBState) (now : Int) (i : DecisionInput),
      validateDecision i = true → (∀ r ∈ st.decisions, r.id ≠ i.id) →
      (createDecisionHandler st now i).1.decisions =
        st.decisions ++ [mkDecisionRow i now]) ∧
    (∀ (st : DBState) (now : Int) (i : DecisionInput) (pre post : List DecisionRow)
        (r : DecisionRow),
      validateDecision i = true → st.decisions = pre ++ r :: post → r.id = i.id →
      (∀ q ∈ pre, q.id ≠ i.id) →
      (createDecisionHandler st now i).1.decisions =
        pre ++ { mkDecisionRow i now with createdAt := r.createdAt } :: post) ∧
    (∀ (st : DBState) (op : Op), op.isCreateDecision = false →
      (step st op).decisions = st.decisions) := by
  refine ⟨?_, ?_, ?_⟩
  · intro st now i hv h
    simp only [createDecisionHandler, if_pos hv]
    exact upsertDecision_fresh st.decisions (mkDecisionRow i now) h
  · intro st now i pre post r hv hsplit hk hpre
    simp only [createDecisionHandler, if_pos hv, hsplit]
    exact upsertDecision_found pre post r (mkDecisionRow i now) hk hpre
  · intro st op hop
    cases op with
    | createDecision now input => simp [Op.isCreateDecision] at hop
    | getDecision id => rfl
    | listDecisions p => rfl
    | createApproval aid did approved adj fails =>
      exact createApprovalHandler_decisions st aid did approved adj fails

/-- Witness for C8 amended: append on a fresh id, field overwrite with
`created_at` retention on a conflicting id, and a non-create operation
leaving decisions untouched. -/
theorem C8_decision_upsert_mutability_witness :
    ((createDecisionHandler (⟨[], [], []⟩ : DBState) 0 exInput1).1.decisions =
      [] ++ [mkDecisionRow exInput1 0]) ∧
    ((createDecisionHandler (⟨[mkDecisionRow exInput1 0], [], []⟩ : DBState) 99
        exInput2).1.decisions =
      [] ++ { mkDecisionRow exInput2 99 with
        createdAt := (mkDecisionRow exInput1 0).createdAt } :: []) ∧
    (step exState (.getDecision exDid)).decisions = exState.decisions :=
  ⟨C8_decision_upsert_mutability.1 (⟨[], [], []⟩ : DBState) 0 exInput1 (by decide) (by decide),
   C8_decision_upsert_mutability.2.1 (⟨[mkDecisionRow exInput1 0], [], []⟩ : DBState) 99
     exInput2 [] [] (mkDecisionRow exInput1 0) (by decide) rfl (by decide) (by decide),
   C8_decision_upsert_mutability.2.2 exState (.getDecision exDid) rfl⟩

/-- C9: the effective limit is clamped into `[1, 1000]`, the effective
offset is clamped to be nonnegative, and the reported total equals the
number of decisions matching the filter, independent of the supplied
limit and offset. -/
theorem C9_pagination_clamps (st : DBState) (p : ListParams) (l2 o2 : Option String) :
    1 ≤ (listDecisionsHandler st p).limit ∧ (listDecisionsHandler st p).limit ≤ 1000 ∧
    0 ≤ (listDecisionsHandler st p).offset ∧
    (listDecisionsHandler st p).total =
      (st.decisions.filter (matchesObjective p.objective)).length ∧
    (listDecisionsHandler st p).total =
      (listDecisionsHandler st ⟨p.objective, l2, o2⟩).total := by
  obtain ⟨h1, h2⟩ := effectiveLimit_bounds p.limit
  exact ⟨h1, h2, effectiveOffset_nonneg p.offset, rfl, rfl⟩

end RuvVector
